import Mathlib

/-!
Verification of the foreign array vtable bridge of `equistore`
(`python/src/equistore/data/array.py`).

The development shallowly embeds the Python code:

* backend arrays (numpy arrays / torch tensors) are modelled as a record
  holding a row-major flat list of values together with a shape, plus the
  metadata the bridge inspects (dtype, contiguity, device, gradient flag);
* the mutable Python heap is modelled as explicit state passing over a
  `World` record mapping array ids and wrapper tokens to their contents;
* Python exceptions are modelled with `Except`; the status-code boundary
  turns them into numeric status codes plus a retrievable message.
-/

set_option autoImplicit false

namespace Equistore

/-! ### Row-major multi-dimensional index arithmetic -/

/-- Row-major flat offset of the multi-index `idx` in an array of shape `sh`. -/
def flatten : List Nat → List Nat → Nat
  | _ :: ds, i :: is => i * ds.prod + flatten ds is
  | _, _ => 0

/-- Inverse of `flatten`: recover the multi-index of flat offset `k`. -/
def unflatten : List Nat → Nat → List Nat
  | [], _ => []
  | _ :: ds, k => k / ds.prod :: unflatten ds (k % ds.prod)

/-- `validIdx idx sh` holds when `idx` is a coordinate-wise in-bounds
multi-index for shape `sh` (same length, every coordinate below its dim). -/
def validIdx : List Nat → List Nat → Bool
  | [], [] => true
  | i :: is, d :: ds => decide (i < d) && validIdx is ds
  | _, _ => false

theorem validIdx_nil_iff (sh : List Nat) : validIdx [] sh = true ↔ sh = [] := by
  cases sh <;> simp [validIdx]

theorem validIdx_cons_iff (i d : Nat) (is ds : List Nat) :
    validIdx (i :: is) (d :: ds) = true ↔ i < d ∧ validIdx is ds = true := by
  simp [validIdx]

theorem validIdx_length : ∀ (idx sh : List Nat), validIdx idx sh = true →
    idx.length = sh.length
  | [], [], _ => rfl
  | [], _ :: _, h => by simp [validIdx] at h
  | _ :: _, [], h => by simp [validIdx] at h
  | _ :: is, _ :: ds, h => by
    rw [validIdx_cons_iff] at h
    simpa using validIdx_length is ds h.2

theorem prod_pos_of_validIdx : ∀ (idx sh : List Nat), validIdx idx sh = true →
    0 < sh.prod
  | [], [], _ => by simp
  | [], _ :: _, h => by simp [validIdx] at h
  | _ :: _, [], h => by simp [validIdx] at h
  | i :: is, d :: ds, h => by
    rw [validIdx_cons_iff] at h
    have hd : 0 < d := Nat.lt_of_le_of_lt (Nat.zero_le i) h.1
    have := prod_pos_of_validIdx is ds h.2
    simpa using Nat.mul_pos hd this

theorem flatten_lt : ∀ (sh idx : List Nat), validIdx idx sh = true →
    flatten sh idx < sh.prod
  | [], [], _ => by simp [flatten]
  | [], _ :: _, h => by simp [validIdx] at h
  | _ :: _, [], h => by simp [validIdx] at h
  | d :: ds, i :: is, h => by
    rw [validIdx_cons_iff] at h
    have hr : flatten ds is < ds.prod := flatten_lt ds is h.2
    have : i * ds.prod + flatten ds is < (i + 1) * ds.prod := by
      rw [Nat.succ_mul]
      exact Nat.add_lt_add_left hr _
    calc flatten (d :: ds) (i :: is) = i * ds.prod + flatten ds is := rfl
      _ < (i + 1) * ds.prod := this
      _ ≤ d * ds.prod := Nat.mul_le_mul_right _ h.1
      _ = (d :: ds).prod := by simp

theorem unflatten_flatten : ∀ (sh idx : List Nat), validIdx idx sh = true →
    unflatten sh (flatten sh idx) = idx
  | [], [], _ => rfl
  | [], _ :: _, h => by simp [validIdx] at h
  | _ :: _, [], h => by simp [validIdx] at h
  | d :: ds, i :: is, h => by
    rw [validIdx_cons_iff] at h
    have hr : flatten ds is < ds.prod := flatten_lt ds is h.2
    have hpos : 0 < ds.prod := Nat.lt_of_le_of_lt (Nat.zero_le _) hr
    have hdiv : (i * ds.prod + flatten ds is) / ds.prod = i := by
      rw [Nat.mul_comm, Nat.mul_add_div hpos, Nat.div_eq_of_lt hr, Nat.add_zero]
    have hmod : (i * ds.prod + flatten ds is) % ds.prod = flatten ds is := by
      rw [Nat.mul_comm, Nat.mul_add_mod, Nat.mod_eq_of_lt hr]
    show (i * ds.prod + flatten ds is) / ds.prod
        :: unflatten ds ((i * ds.prod + flatten ds is) % ds.prod) = i :: is
    rw [hdiv, hmod, unflatten_flatten ds is h.2]

theorem flatten_unflatten : ∀ (sh : List Nat) (k : Nat), k < sh.prod →
    flatten sh (unflatten sh k) = k
  | [], k, hk => by
    have hk0 : k = 0 := Nat.lt_one_iff.mp (by simpa using hk)
    simp [hk0, flatten, unflatten]
  | d :: ds, k, hk => by
    have hpos : 0 < ds.prod := Nat.pos_of_ne_zero (by
      intro h0
      rw [List.prod_cons, h0, Nat.mul_zero] at hk
      exact Nat.not_lt_zero _ hk)
    show k / ds.prod * ds.prod + flatten ds (unflatten ds (k % ds.prod)) = k
    rw [flatten_unflatten ds (k % ds.prod) (Nat.mod_lt _ hpos), Nat.mul_comm]
    exact Nat.div_add_mod k ds.prod

theorem unflatten_valid : ∀ (sh : List Nat) (k : Nat), k < sh.prod →
    validIdx (unflatten sh k) sh = true
  | [], _, _ => rfl
  | d :: ds, k, hk => by
    have hpos : 0 < ds.prod := Nat.pos_of_ne_zero (by
      intro h0
      rw [List.prod_cons, h0, Nat.mul_zero] at hk
      exact Nat.not_lt_zero _ hk)
    show validIdx (k / ds.prod :: unflatten ds (k % ds.prod)) (d :: ds) = true
    rw [validIdx_cons_iff]
    constructor
    · rw [Nat.div_lt_iff_lt_mul hpos]
      rw [List.prod_cons] at hk
      exact hk
    · exact unflatten_valid ds (k % ds.prod) (Nat.mod_lt _ hpos)

/-! ### Swapping two entries of a list (the shape/index effect of `swapaxes`) -/

/-- Exchange the entries at positions `i` and `j` of `l`. -/
def swapIdx (l : List Nat) (i j : Nat) : List Nat :=
  (l.set i (l.getD j 0)).set j (l.getD i 0)

theorem length_swapIdx (l : List Nat) (i j : Nat) :
    (swapIdx l i j).length = l.length := by
  simp [swapIdx]

theorem set_getD_self (l : List Nat) (i : Nat) (h : i < l.length) :
    l.set i (l.getD i 0) = l := by
  apply List.ext_getElem
  · simp
  · intro n h1 h2
    by_cases hn : n = i
    · subst hn
      rw [List.getElem_set_self, List.getD_eq_getElem l 0 h2]
    · exact List.getElem_set_ne (fun h => hn h.symm) h1

/-- The transposition of indices realised by `swapIdx`. -/
def swapFn (i j k : Nat) : Nat :=
  if k = j then i else if k = i then j else k

theorem swapIdx_getD (l : List Nat) (i j k : Nat) (hi : i < l.length)
    (hj : j < l.length) (hk : k < l.length) :
    (swapIdx l i j).getD k 0 = l.getD (swapFn i j k) 0 := by
  unfold swapIdx swapFn
  by_cases hkj : k = j
  · rw [if_pos hkj, hkj]
    rw [List.getD_eq_getElem _ 0 (by simpa using hj), List.getElem_set_self]
  · by_cases hki : k = i
    · have hji : j ≠ i := fun h => hkj (hki.trans h.symm)
      rw [if_neg hkj, if_pos hki, hki]
      rw [List.getD_eq_getElem _ 0 (by simpa using hi),
        List.getElem_set_ne hji, List.getElem_set_self]
    · rw [if_neg hkj, if_neg hki]
      rw [List.getD_eq_getElem _ 0 (by simpa using hk),
        List.getElem_set_ne (fun h => hkj h.symm),
        List.getElem_set_ne (fun h => hki h.symm),
        List.getD_eq_getElem l 0 hk]

theorem swapFn_lt {n i j k : Nat} (hi : i < n) (hj : j < n) (hk : k < n) :
    swapFn i j k < n := by
  unfold swapFn
  split <;> [exact hi; skip]
  split <;> [exact hj; exact hk]

theorem swapFn_swapFn (i j k : Nat) : swapFn i j (swapFn i j k) = k := by
  unfold swapFn
  split_ifs <;> omega

theorem swapIdx_swapIdx (l : List Nat) (i j : Nat) (hi : i < l.length)
    (hj : j < l.length) : swapIdx (swapIdx l i j) i j = l := by
  apply List.ext_getElem
  · simp [length_swapIdx]
  · intro k h1 h2
    have hk : k < l.length := by simpa [length_swapIdx] using h2
    have hl1 : i < (swapIdx l i j).length := by simpa [length_swapIdx] using hi
    have hl2 : j < (swapIdx l i j).length := by simpa [length_swapIdx] using hj
    have hk1 : k < (swapIdx l i j).length := by simpa [length_swapIdx] using hk
    have := swapIdx_getD (swapIdx l i j) i j k hl1 hl2 hk1
    rw [swapIdx_getD l i j (swapFn i j k) hi hj (swapFn_lt hi hj hk),
      swapFn_swapFn] at this
    rw [List.getD_eq_getElem _ 0 h1, List.getD_eq_getElem l 0 hk] at this
    exact this

theorem getD_cons_perm_set (xs : List Nat) (m x : Nat) (hm : m < xs.length) :
    List.Perm (xs.getD m 0 :: xs.set m x) (x :: xs) := by
  induction xs generalizing m with
  | nil => exact absurd hm (Nat.not_lt_zero _)
  | cons y ys ih =>
    cases m with
    | zero => exact List.Perm.swap _ _ _
    | succ m' =>
      have hm' : m' < ys.length := Nat.lt_of_succ_lt_succ hm
      show List.Perm (ys.getD m' 0 :: y :: ys.set m' x) (x :: y :: ys)
      exact ((List.Perm.swap y (ys.getD m' 0) (ys.set m' x)).trans
        (List.Perm.cons y (ih m' hm'))).trans (List.Perm.swap x y ys)

theorem swapIdx_perm_lt : ∀ (l : List Nat) (i j : Nat), i < j → j < l.length →
    List.Perm (swapIdx l i j) l
  | [], _, _, _, hj => absurd hj (Nat.not_lt_zero _)
  | x :: xs, 0, j + 1, _, hj => by
    have hj' : j < xs.length := Nat.lt_of_succ_lt_succ hj
    show List.Perm (xs.getD j 0 :: xs.set j x) (x :: xs)
    exact getD_cons_perm_set xs j x hj'
  | x :: xs, i + 1, j + 1, hij, hj => by
    have hij' : i < j := Nat.lt_of_succ_lt_succ hij
    have hj' : j < xs.length := Nat.lt_of_succ_lt_succ hj
    show List.Perm (x :: swapIdx xs i j) (x :: xs)
    exact List.Perm.cons x (swapIdx_perm_lt xs i j hij' hj')

theorem swapIdx_comm (l : List Nat) (i j : Nat) (hij : i ≠ j) :
    swapIdx l i j = swapIdx l j i := by
  unfold swapIdx
  rw [List.set_comm _ _ _ hij]

theorem swapIdx_perm (l : List Nat) (i j : Nat) (hi : i < l.length)
    (hj : j < l.length) : List.Perm (swapIdx l i j) l := by
  rcases Nat.lt_trichotomy i j with h | h | h
  · exact swapIdx_perm_lt l i j h hj
  · subst h
    rw [swapIdx, List.set_set, set_getD_self l i hi]
  · rw [swapIdx_comm l i j (Nat.ne_of_gt h)]
    exact swapIdx_perm_lt l j i h hi

theorem prod_swapIdx (l : List Nat) (i j : Nat) (hi : i < l.length)
    (hj : j < l.length) : (swapIdx l i j).prod = l.prod :=
  (swapIdx_perm l i j hi hj).prod_eq

theorem validIdx_iff_getD : ∀ (idx sh : List Nat), validIdx idx sh = true ↔
    idx.length = sh.length ∧ ∀ k, k < sh.length → idx.getD k 0 < sh.getD k 0
  | [], [] => by simp [validIdx]
  | [], _ :: _ => by simp [validIdx]
  | _ :: _, [] => by simp [validIdx]
  | i :: is, d :: ds => by
    rw [validIdx_cons_iff, validIdx_iff_getD is ds]
    constructor
    · rintro ⟨h1, h2, h3⟩
      refine ⟨by simpa using h2, ?_⟩
      intro k hk
      cases k with
      | zero => exact h1
      | succ k' => exact h3 k' (Nat.lt_of_succ_lt_succ hk)
    · rintro ⟨h1, h2⟩
      refine ⟨h2 0 (Nat.succ_pos _), by simpa using h1, ?_⟩
      intro k hk
      exact h2 (k + 1) (Nat.succ_lt_succ hk)

theorem validIdx_swapIdx (idx sh : List Nat) (i j : Nat) (hi : i < sh.length)
    (hj : j < sh.length) (h : validIdx idx sh = true) :
    validIdx (swapIdx idx i j) (swapIdx sh i j) = true := by
  rw [validIdx_iff_getD] at h
  obtain ⟨hlen, hlt⟩ := h
  rw [validIdx_iff_getD]
  constructor
  · simp [length_swapIdx, hlen]
  · intro k hk
    have hk' : k < sh.length := by simpa [length_swapIdx] using hk
    rw [swapIdx_getD idx i j k (hlen ▸ hi) (hlen ▸ hj) (hlen ▸ hk'),
      swapIdx_getD sh i j k hi hj hk']
    exact hlt _ (swapFn_lt hi hj hk')

/-! ### The value model of backend arrays

A backend array's values are modelled as a row-major flat list of its
elements together with its shape, exactly the layout `numpy` exposes
through `array.ctypes.data`. -/

/-- Row-major multi-dimensional array of (64-bit float) values.  Values are
modelled exactly (the bridge only ever copies them, it never computes with
them), so an `Int`-valued model is faithful. -/
@[ext]
structure NDArray where
  shape : List Nat
  data : List Int
deriving DecidableEq

/-- Element of `a` at multi-index `idx` (row-major). -/
def NDArray.get (a : NDArray) (idx : List Nat) : Int :=
  a.data.getD (flatten a.shape idx) 0

/-- A well-formed array stores exactly one value per position of its shape. -/
def NDArray.wf (a : NDArray) : Prop :=
  a.data.length = a.shape.prod

instance (a : NDArray) : Decidable a.wf := by
  unfold NDArray.wf; infer_instance

theorem getD_map_range (n k : Nat) (f : Nat → Int) (hk : k < n) :
    ((List.range n).map f).getD k 0 = f k := by
  rw [List.getD_eq_getElem _ 0 (by simpa using hk), List.getElem_map,
    List.getElem_range]

/-- `numpy.swapaxes` / `torch.swapaxes`: permute dimensions `i` and `j`.
The element at index `idx` of the result is the element of `a` at `idx`
with coordinates `i` and `j` exchanged. -/
def NDArray.swapAxes (a : NDArray) (i j : Nat) : NDArray :=
  { shape := swapIdx a.shape i j
    data := (List.range (swapIdx a.shape i j).prod).map fun k =>
      a.get (swapIdx (unflatten (swapIdx a.shape i j) k) i j) }

theorem swapAxes_shape (a : NDArray) (i j : Nat) :
    (a.swapAxes i j).shape = swapIdx a.shape i j := rfl

theorem swapAxes_data (a : NDArray) (i j : Nat) :
    (a.swapAxes i j).data = (List.range (swapIdx a.shape i j).prod).map
      (fun k => a.get (swapIdx (unflatten (swapIdx a.shape i j) k) i j)) := rfl

theorem swapAxes_get (a : NDArray) (i j : Nat) (idx : List Nat)
    (h : validIdx idx (swapIdx a.shape i j) = true) :
    (a.swapAxes i j).get idx = a.get (swapIdx idx i j) := by
  unfold NDArray.swapAxes NDArray.get
  simp only
  rw [getD_map_range _ _ _ (flatten_lt _ _ h), unflatten_flatten _ _ h]

theorem swapAxes_wf (a : NDArray) (i j : Nat) : (a.swapAxes i j).wf := by
  unfold NDArray.swapAxes NDArray.wf
  simp

theorem swapAxes_swapAxes (a : NDArray) (i j : Nat) (hwf : a.wf)
    (hi : i < a.shape.length) (hj : j < a.shape.length) :
    (a.swapAxes i j).swapAxes i j = a := by
  apply NDArray.ext
  · rw [swapAxes_shape, swapAxes_shape, swapIdx_swapIdx a.shape i j hi hj]
  · rw [swapAxes_data, swapAxes_shape, swapIdx_swapIdx a.shape i j hi hj]
    apply List.ext_getElem
    · simpa using hwf.symm
    · intro k h1 h2
      have hk : k < a.shape.prod := by simpa using h1
      rw [List.getElem_map, List.getElem_range]
      have hvalid : validIdx (unflatten a.shape k) a.shape = true :=
        unflatten_valid a.shape k hk
      have hlen : (unflatten a.shape k).length = a.shape.length :=
        validIdx_length _ _ hvalid
      have hvalid' : validIdx (swapIdx (unflatten a.shape k) i j)
          (swapIdx a.shape i j) = true := validIdx_swapIdx _ _ i j hi hj hvalid
      rw [swapAxes_get a i j _ hvalid',
        swapIdx_swapIdx _ i j (hlen ▸ hi) (hlen ▸ hj)]
      unfold NDArray.get
      rw [flatten_unflatten a.shape k hk, List.getD_eq_getElem _ 0 h2]

/-! ### `move_samples_from` (value level)

`_eqs_array_move_samples_from` performs, for each `(input, output)` pair of
the mapping (in order), the numpy assignment
`output[i_out, ..., start:stop] = input[i_in, ..., :]`. -/

/-- Effect of one `(iIn, iOut)` pair:
`dest[iOut, ..., start:stop] = src[iIn, ..., :]`.  A position whose leading
(sample) coordinate is `iOut` and whose trailing (property) coordinate `p`
lies in `[start, stop)` receives `src` at sample `iIn`, same middle
coordinates, property `p - start`; every other position keeps its value. -/
def moveOne (dest src : NDArray) (iIn iOut start stop : Nat) : NDArray :=
  { shape := dest.shape
    data := (List.range dest.data.length).map fun k =>
      match unflatten dest.shape k with
      | [] => dest.data.getD k 0
      | s :: rest =>
        if s = iOut ∧ rest ≠ [] ∧ start ≤ rest.getLastD 0 ∧
            rest.getLastD 0 < stop then
          src.get (iIn :: (rest.dropLast ++ [rest.getLastD 0 - start]))
        else dest.data.getD k 0 }

/-- `_eqs_array_move_samples_from`: apply every pair of the mapping in order. -/
def move_samples_from (dest src : NDArray) (mapping : List (Nat × Nat))
    (start stop : Nat) : NDArray :=
  mapping.foldl (fun d pr => moveOne d src pr.1 pr.2 start stop) dest

theorem moveOne_shape (dest src : NDArray) (iIn iOut start stop : Nat) :
    (moveOne dest src iIn iOut start stop).shape = dest.shape := rfl

theorem moveOne_length (dest src : NDArray) (iIn iOut start stop : Nat) :
    (moveOne dest src iIn iOut start stop).data.length = dest.data.length := by
  simp [moveOne]

theorem moveOne_wf (dest src : NDArray) (iIn iOut start stop : Nat)
    (h : dest.wf) : (moveOne dest src iIn iOut start stop).wf := by
  unfold NDArray.wf at *
  rw [moveOne_length, moveOne_shape, h]

theorem moveOne_get (dest src : NDArray) (iIn iOut start stop : Nat)
    (s p : Nat) (midIdx : List Nat) (hwf : dest.wf)
    (hvalid : validIdx (s :: (midIdx ++ [p])) dest.shape = true) :
    (moveOne dest src iIn iOut start stop).get (s :: (midIdx ++ [p])) =
      if s = iOut ∧ start ≤ p ∧ p < stop then
        src.get (iIn :: (midIdx ++ [p - start]))
      else dest.get (s :: (midIdx ++ [p])) := by
  have hflt : flatten dest.shape (s :: (midIdx ++ [p])) < dest.shape.prod :=
    flatten_lt _ _ hvalid
  have hlen : flatten dest.shape (s :: (midIdx ++ [p])) < dest.data.length := by
    rw [hwf]; exact hflt
  show (moveOne dest src iIn iOut start stop).data.getD
      (flatten (moveOne dest src iIn iOut start stop).shape
        (s :: (midIdx ++ [p]))) 0 = _
  rw [moveOne_shape]
  unfold moveOne
  simp only
  rw [getD_map_range _ _ _ hlen, unflatten_flatten _ _ hvalid]
  show (if s = iOut ∧ midIdx ++ [p] ≠ [] ∧ start ≤ (midIdx ++ [p]).getLastD 0 ∧
      (midIdx ++ [p]).getLastD 0 < stop then
      src.get (iIn :: ((midIdx ++ [p]).dropLast ++
        [(midIdx ++ [p]).getLastD 0 - start]))
    else dest.data.getD (flatten dest.shape (s :: (midIdx ++ [p]))) 0) = _
  rw [List.getLastD_concat, List.dropLast_concat]
  by_cases hc : s = iOut ∧ start ≤ p ∧ p < stop
  · rw [if_pos ⟨hc.1, by simp, hc.2.1, hc.2.2⟩, if_pos hc]
  · rw [if_neg (by tauto), if_neg hc]
    rfl

theorem msf_shape (src : NDArray) (mapping : List (Nat × Nat))
    (start stop : Nat) : ∀ (dest : NDArray),
    (move_samples_from dest src mapping start stop).shape = dest.shape := by
  induction mapping with
  | nil => intro dest; rfl
  | cons pr rest ih =>
    intro dest
    show (move_samples_from (moveOne dest src pr.1 pr.2 start stop)
      src rest start stop).shape = dest.shape
    rw [ih, moveOne_shape]

theorem msf_wf (src : NDArray) (mapping : List (Nat × Nat))
    (start stop : Nat) : ∀ (dest : NDArray), dest.wf →
    (move_samples_from dest src mapping start stop).wf := by
  induction mapping with
  | nil => intro dest h; exact h
  | cons pr rest ih =>
    intro dest h
    exact ih (moveOne dest src pr.1 pr.2 start stop)
      (moveOne_wf dest src pr.1 pr.2 start stop h)

theorem msf_length (src : NDArray) (mapping : List (Nat × Nat))
    (start stop : Nat) : ∀ (dest : NDArray),
    (move_samples_from dest src mapping start stop).data.length =
      dest.data.length := by
  induction mapping with
  | nil => intro dest; rfl
  | cons pr rest ih =>
    intro dest
    show (move_samples_from (moveOne dest src pr.1 pr.2 start stop)
      src rest start stop).data.length = dest.data.length
    rw [ih, moveOne_length]

theorem msf_get_untouched (src : NDArray) (start stop : Nat)
    (s p : Nat) (midIdx : List Nat) :
    ∀ (mapping : List (Nat × Nat)) (dest : NDArray), dest.wf →
    validIdx (s :: (midIdx ++ [p])) dest.shape = true →
    (s ∉ mapping.map Prod.snd ∨ p < start ∨ stop ≤ p) →
    (move_samples_from dest src mapping start stop).get (s :: (midIdx ++ [p])) =
      dest.get (s :: (midIdx ++ [p])) := by
  intro mapping
  induction mapping with
  | nil => intro dest _ _ _; rfl
  | cons pr rest ih =>
    intro dest hwf hvalid huntouched
    show (move_samples_from (moveOne dest src pr.1 pr.2 start stop)
      src rest start stop).get (s :: (midIdx ++ [p])) = dest.get _
    have hvalid' : validIdx (s :: (midIdx ++ [p]))
        (moveOne dest src pr.1 pr.2 start stop).shape = true := by
      rw [moveOne_shape]; exact hvalid
    rw [ih (moveOne dest src pr.1 pr.2 start stop)
      (moveOne_wf _ _ _ _ _ _ hwf) hvalid'
      (by rcases huntouched with h | h
          · exact Or.inl (fun hm => h (by simp; exact Or.inr (by simpa using hm)))
          · exact Or.inr h)]
    rw [moveOne_get dest src pr.1 pr.2 start stop s p midIdx hwf hvalid]
    rw [if_neg]
    rcases huntouched with h | h
    · intro hc
      exact h (by simp [hc.1])
    · intro hc
      omega

theorem msf_get_pair (src : NDArray) (start stop : Nat)
    (iIn iOut p : Nat) (midIdx : List Nat) :
    ∀ (mapping : List (Nat × Nat)) (dest : NDArray), dest.wf →
    (mapping.map Prod.snd).Nodup →
    (iIn, iOut) ∈ mapping →
    validIdx (iOut :: (midIdx ++ [p])) dest.shape = true →
    start ≤ p → p < stop →
    (move_samples_from dest src mapping start stop).get
        (iOut :: (midIdx ++ [p])) =
      src.get (iIn :: (midIdx ++ [p - start])) := by
  intro mapping
  induction mapping with
  | nil => intro dest _ _ hmem; exact absurd hmem (List.not_mem_nil _)
  | cons pr rest ih =>
    intro dest hwf hnodup hmem hvalid hstart hstop
    show (move_samples_from (moveOne dest src pr.1 pr.2 start stop)
      src rest start stop).get (iOut :: (midIdx ++ [p])) = _
    have hwf' : (moveOne dest src pr.1 pr.2 start stop).wf :=
      moveOne_wf _ _ _ _ _ _ hwf
    have hvalid' : validIdx (iOut :: (midIdx ++ [p]))
        (moveOne dest src pr.1 pr.2 start stop).shape = true := by
      rw [moveOne_shape]; exact hvalid
    rcases List.mem_cons.mp hmem with heq | hmemrest
    · have hout : iOut ∉ rest.map Prod.snd := by
        have := hnodup
        rw [List.map_cons, List.nodup_cons] at this
        rw [← heq] at this
        exact this.1
      rw [msf_get_untouched src start stop iOut p midIdx rest
        (moveOne dest src pr.1 pr.2 start stop) hwf' hvalid' (Or.inl hout)]
      rw [moveOne_get dest src pr.1 pr.2 start stop iOut p midIdx hwf hvalid]
      rw [← heq]
      rw [if_pos ⟨rfl, hstart, hstop⟩]
    · have hnodup' : (rest.map Prod.snd).Nodup := by
        rw [List.map_cons, List.nodup_cons] at hnodup
        exact hnodup.2
      exact ih (moveOne dest src pr.1 pr.2 start stop) hwf' hnodup'
        hmemrest hvalid' hstart hstop

/-! ### Backend arrays with their bridge-visible metadata -/

/-- Element type of a backend array; the bridge only distinguishes
`numpy.float64` from everything else. -/
inductive Dtype where
  | float64
  | other (name : String)
deriving DecidableEq

/-- The two backend kinds recognised by `ArrayWrapper.__init__`. -/
inductive Backend where
  | numpy
  | torch
deriving DecidableEq

/-- A backend array (a `numpy.ndarray` or a `torch.Tensor`) together with
the metadata the bridge inspects.  `device` and `requiresGrad` are only
ever read on the torch path (numpy arrays live on the host and carry no
autograd state), mirroring the Python code which only queries
`array.device` / calls `.numpy()` for tensors. -/
structure BackendArr where
  backend : Backend
  nd : NDArray
  dtype : Dtype
  contiguous : Bool
  device : String
  requiresGrad : Bool
deriving DecidableEq

/-- A Python object handed to `ArrayWrapper`: either a recognised backend
array or an arbitrary object of some other runtime type. -/
inductive PyObject where
  | array (arr : BackendArr)
  | other (typeName : String)

/-! ### Errors and status codes -/

/-- The spec's error taxonomy (§7).  The Python code raises host exceptions
(`ValueError` etc.); the taxonomy names the failure kinds those exceptions
represent. -/
inductive ErrKind where
  | typeErr
  | contiguityErr
  | dtypeErr
  | deviceErr
  | shapeErr
  | preconditionErr
  | internalErr
deriving DecidableEq

/-- An error: a failure kind plus the retrievable message. -/
structure EqsError where
  kind : ErrKind
  message : String
deriving DecidableEq

/-- Nonzero status code of each failure kind (§6: `SUCCESS = 0`, nonzero
codes for unknown backend type, non-contiguous data, dtype mismatch,
off-host storage, reshape mismatch, precondition violation, internal). -/
def kindCode : ErrKind → Nat
  | .typeErr => 1
  | .contiguityErr => 2
  | .dtypeErr => 3
  | .deviceErr => 4
  | .shapeErr => 5
  | .preconditionErr => 6
  | .internalErr => 7

theorem kindCode_ne_zero (k : ErrKind) : kindCode k ≠ 0 := by
  cases k <;> simp [kindCode]

/-- Error used when a capability token does not resolve to a live wrapper. -/
def invalidHandle : EqsError :=
  ⟨.internalErr, "invalid eqs_array_t handle"⟩

/-! ### The data-pointer validator (`_eqs_array_data`) -/

/-- The checks `_eqs_array_data` runs on the (numpy view of the) array
before exposing a pointer: C-contiguity first, then the `float64` dtype. -/
def checkDataPointer (arr : BackendArr) : Except EqsError Unit :=
  if arr.contiguous = false then
    .error ⟨.contiguityErr, "can not get data pointer for non contiguous array"⟩
  else if arr.dtype ≠ Dtype.float64 then
    .error ⟨.dtypeErr, "can not get data pointer for array type"⟩
  else .ok ()

/-- `_eqs_array_data`: for numpy arrays, validate contiguity and dtype; for
torch tensors, first require a CPU device, then convert with `.numpy()`
(which raises if the tensor requires gradient tracking — noted in the
source comment), then run the same checks on the resulting view. -/
def eqs_array_data (arr : BackendArr) : Except EqsError Unit :=
  match arr.backend with
  | .numpy => checkDataPointer arr
  | .torch =>
    if arr.device ≠ "cpu" then
      .error ⟨.deviceErr, "can only get data pointer for tensors on CPU"⟩
    else if arr.requiresGrad then
      .error ⟨.internalErr, "cannot call numpy() on a tensor that requires grad"⟩
    else checkDataPointer arr

/-! ### The world: Python heap state for arrays and wrappers -/

/-- Per-wrapper state: the id of the wrapped backend array, the cached
shape (`ArrayWrapper._shape`), the origin tag stamped at construction, and
the number of references held by the native core (raised by
`into_eqs_array`, lowered by `eqs_array_t::destroy`). -/
structure WrapperSt where
  arrayId : Nat
  shapeCache : List Nat
  origin : Nat
  refCount : Nat
deriving DecidableEq

/-- The mutable state: backend arrays and wrappers addressed by ids, plus
fresh-id counters. -/
@[ext]
structure World where
  heap : Nat → Option BackendArr
  wrappers : Nat → Option WrapperSt
  nextArrayId : Nat
  nextWrapperId : Nat

def World.setHeap (w : World) (k : Nat) (a : BackendArr) : World :=
  { w with heap := fun n => if n = k then some a else w.heap n }

def World.setWrapper (w : World) (t : Nat) (st : WrapperSt) : World :=
  { w with wrappers := fun n => if n = t then some st else w.wrappers n }

/-- Origin tag registered for the numpy backend. -/
def numpyOrigin : Nat := 0

/-- Origin tag registered for the torch backend. -/
def torchOrigin : Nat := 1

def originOf : Backend → Nat
  | .numpy => numpyOrigin
  | .torch => torchOrigin

/-- `ArrayWrapper.__init__` on a recognised backend array: record the array
on the heap and create a wrapper caching its current shape, stamped with
the backend's origin tag; nothing references it from the native side yet. -/
def newWrapper (w : World) (arr : BackendArr) : World × Nat :=
  let aid := w.nextArrayId
  let tok := w.nextWrapperId
  let w1 := (w.setHeap aid arr).setWrapper tok
    { arrayId := aid, shapeCache := arr.nd.shape,
      origin := originOf arr.backend, refCount := 0 }
  ({ w1 with nextArrayId := aid + 1, nextWrapperId := tok + 1 }, tok)

/-- `ArrayWrapper.__init__`: recognised arrays are wrapped; any other
runtime type raises (synchronously, to the code calling the constructor)
the unknown-array-type error. -/
def wrap (w : World) (obj : PyObject) : Except EqsError (World × Nat) :=
  match obj with
  | .array arr => .ok (newWrapper w arr)
  | .other typeName => .error ⟨.typeErr, "unknown array type: " ++ typeName⟩

/-- `ArrayWrapper.into_eqs_array`: raise the native-side reference count of
the wrapper by one and hand out the capability token (the `eqs_array_t`
whose `ptr` designates this wrapper and whose vtable is `callVTable`). -/
def intoEqsArray (w : World) (tok : Nat) : World × Nat :=
  match w.wrappers tok with
  | some st => (w.setWrapper tok { st with refCount := st.refCount + 1 }, tok)
  | none => (w, tok)

/-- `_eqs_array_destroy`: drop the reference added by `into_eqs_array`. -/
def destroyOp (w : World) (tok : Nat) : World :=
  match w.wrappers tok with
  | some st => w.setWrapper tok { st with refCount := st.refCount - 1 }
  | none => w

/-- `_eqs_array_reshape`: `wrapper.array = wrapper.array.reshape(shape)`
(which succeeds exactly when the element counts agree, keeping the
row-major data), then update the shape cache.  On failure nothing has been
mutated, since the backend `reshape` raises before either assignment. -/
def reshapeOp (w : World) (tok : Nat) (newShape : List Nat) :
    Except EqsError World :=
  match w.wrappers tok with
  | none => .error invalidHandle
  | some st =>
    match w.heap st.arrayId with
    | none => .error invalidHandle
    | some arr =>
      if newShape.prod = arr.nd.shape.prod then
        .ok ((w.setHeap st.arrayId
            { arr with nd := { shape := newShape, data := arr.nd.data } }).setWrapper
          tok { st with shapeCache := newShape })
      else .error ⟨.shapeErr, "cannot reshape array"⟩

/-- `_eqs_array_swap_axes`: `wrapper.array = wrapper.array.swapaxes(a1, a2)`
(raising on an out-of-range axis), then refresh the shape cache from the
new array. -/
def swapAxesOp (w : World) (tok : Nat) (i j : Nat) : Except EqsError World :=
  match w.wrappers tok with
  | none => .error invalidHandle
  | some st =>
    match w.heap st.arrayId with
    | none => .error invalidHandle
    | some arr =>
      if i < arr.nd.shape.length ∧ j < arr.nd.shape.length then
        .ok ((w.setHeap st.arrayId { arr with nd := arr.nd.swapAxes i j }).setWrapper
          tok { st with shapeCache := (arr.nd.swapAxes i j).shape })
      else .error ⟨.internalErr, "axis out of bounds"⟩

/-- `np.zeros(shape, dtype=dtype)` / `torch.zeros(shape, dtype=dtype,
device=device)`: a fresh zero-filled array of the same backend, element
type and device as `arr`. -/
def zerosLike (arr : BackendArr) (shape : List Nat) : BackendArr :=
  { backend := arr.backend
    nd := { shape := shape, data := List.replicate shape.prod 0 }
    dtype := arr.dtype
    contiguous := true
    device := arr.device
    requiresGrad := false }

/-- `_eqs_array_create`: allocate a zero array like the wrapped one, wrap
it, and hand the native core a handle to it via `into_eqs_array`. -/
def createOp (w : World) (tok : Nat) (shape : List Nat) :
    Except EqsError (World × Nat) :=
  match w.wrappers tok with
  | none => .error invalidHandle
  | some st =>
    match w.heap st.arrayId with
    | none => .error invalidHandle
    | some arr =>
      let p := newWrapper w (zerosLike arr shape)
      .ok (intoEqsArray p.1 p.2)

/-- `wrapper.array.copy()` / `wrapper.array.clone()`: a deep copy holding
the same values and shape in fresh storage (`ndarray.copy` always returns a
C-contiguous copy; `clone` keeps the tensor's layout). -/
def copyBackend (arr : BackendArr) : BackendArr :=
  match arr.backend with
  | .numpy => { arr with contiguous := true }
  | .torch => arr

/-- `_eqs_array_copy`: deep-copy the wrapped array, wrap the copy, and hand
the native core a handle to it via `into_eqs_array`. -/
def copyOp (w : World) (tok : Nat) : Except EqsError (World × Nat) :=
  match w.wrappers tok with
  | none => .error invalidHandle
  | some st =>
    match w.heap st.arrayId with
    | none => .error invalidHandle
    | some arr =>
      let p := newWrapper w (copyBackend arr)
      .ok (intoEqsArray p.1 p.2)

/-- Conditions under which the numpy assignment
`output[outputs, ..., start:stop] = input[inputs, ..., :]` performed by
`_eqs_array_move_samples_from` succeeds (exact, non-broadcast case): both
arrays have a sample axis, identical middle dimensions, the property range
is a valid column range of `dest` whose width is `src`'s property width,
and every sample index is in range. -/
def msfGuard (destSh srcSh : List Nat) (mapping : List (Nat × Nat))
    (start stop : Nat) : Prop :=
  2 ≤ destSh.length ∧
  destSh.length = srcSh.length ∧
  (destSh.drop 1).dropLast = (srcSh.drop 1).dropLast ∧
  start ≤ stop ∧
  stop ≤ destSh.getLastD 0 ∧
  stop - start = srcSh.getLastD 0 ∧
  ∀ pr ∈ mapping, pr.1 < srcSh.headD 0 ∧ pr.2 < destSh.headD 0

instance (destSh srcSh : List Nat) (mapping : List (Nat × Nat))
    (start stop : Nat) :
    Decidable (msfGuard destSh srcSh mapping start stop) := by
  unfold msfGuard; infer_instance

/-- `_eqs_array_move_samples_from`: transplant the mapped sample rows of
`src` into the property range `[start, stop)` of `dest`, in place. -/
def moveSamplesFromOp (w : World) (destTok srcTok : Nat)
    (mapping : List (Nat × Nat)) (start stop : Nat) : Except EqsError World :=
  match w.wrappers destTok with
  | none => .error invalidHandle
  | some stD =>
    match w.heap stD.arrayId with
    | none => .error invalidHandle
    | some arrD =>
      match w.wrappers srcTok with
      | none => .error invalidHandle
      | some stS =>
        match w.heap stS.arrayId with
        | none => .error invalidHandle
        | some arrS =>
          if msfGuard arrD.nd.shape arrS.nd.shape mapping start stop then
            .ok (w.setHeap stD.arrayId
              { arrD with
                nd := move_samples_from arrD.nd arrS.nd mapping start stop })
          else
            .error ⟨.preconditionErr, "invalid samples in move_samples_from"⟩

/-- In-place element write `wrapper.array[flat position k] = v` — the
generic mutation used to state independence of copies. -/
def setArrayValue (w : World) (tok : Nat) (k : Nat) (v : Int) : World :=
  match w.wrappers tok with
  | none => w
  | some st =>
    match w.heap st.arrayId with
    | none => w
    | some arr =>
      w.setHeap st.arrayId
        { arr with nd := { arr.nd with data := arr.nd.data.set k v } }

/-- The values currently stored by the array wrapped behind `tok`. -/
def valuesOf (w : World) (tok : Nat) : Option (List Int) :=
  match w.wrappers tok with
  | none => none
  | some st =>
    match w.heap st.arrayId with
    | none => none
    | some arr => some arr.nd.data

/-- Native-side reference count of the wrapper behind `tok`. -/
def refCountOf (w : World) (tok : Nat) : Nat :=
  match w.wrappers tok with
  | none => 0
  | some st => st.refCount

/-- A wrapper whose native-side reference count has returned to zero no
longer has anything keeping the backend array alive: it is collectible. -/
def collectible (w : World) (tok : Nat) : Prop :=
  refCountOf w tok = 0

/-- `n` successive `into_eqs_array` calls on the same wrapper. -/
def intoN : Nat → World → Nat → World
  | 0, w, _ => w
  | n + 1, w, tok => intoN n (intoEqsArray w tok).1 tok

/-- `n` successive `eqs_array_t::destroy` calls on the same wrapper. -/
def destroyN : Nat → World → Nat → World
  | 0, w, _ => w
  | n + 1, w, tok => destroyN n (destroyOp w tok) tok

/-! ### The vtable boundary -/

/-- Result value written through a callback's output pointer. -/
inductive VOut where
  | unit
  | originTag (tag : Nat)
  | shapeOut (shape : List Nat)
  | dataPtr
  | token (tok : Nat)
deriving DecidableEq

/-- One invocation of a vtable entry on the capability token. -/
inductive VTableCall where
  | origin
  | data
  | shape
  | reshape (newShape : List Nat)
  | swapAxes (i j : Nat)
  | create (shape : List Nat)
  | copy
  | destroy
  | moveSamplesFrom (srcTok : Nat) (mapping : List (Nat × Nat))
      (start stop : Nat)
deriving DecidableEq

/-- Dispatch of the vtable callbacks bound by `ArrayWrapper.__init__`,
before the `catch_exceptions` boundary: failures are still `Except` errors
here. -/
def callVTable (w : World) (tok : Nat) :
    VTableCall → Except EqsError (World × VOut)
  | .origin =>
    match w.wrappers tok with
    | some st => .ok (w, .originTag st.origin)
    | none => .error invalidHandle
  | .data =>
    match w.wrappers tok with
    | some st =>
      match w.heap st.arrayId with
      | some arr => (eqs_array_data arr).map fun _ => (w, .dataPtr)
      | none => .error invalidHandle
    | none => .error invalidHandle
  | .shape =>
    match w.wrappers tok with
    | some st => .ok (w, .shapeOut st.shapeCache)
    | none => .error invalidHandle
  | .reshape newShape => (reshapeOp w tok newShape).map fun w' => (w', .unit)
  | .swapAxes i j => (swapAxesOp w tok i j).map fun w' => (w', .unit)
  | .create shape => (createOp w tok shape).map fun p => (p.1, .token p.2)
  | .copy => (copyOp w tok).map fun p => (p.1, .token p.2)
  | .destroy => .ok (destroyOp w tok, .unit)
  | .moveSamplesFrom srcTok mapping start stop =>
    (moveSamplesFromOp w tok srcTok mapping start stop).map fun w' =>
      (w', .unit)

/-- Status word reported across the foreign-call frame: `SUCCESS = 0` or a
nonzero code plus the retrievable message. -/
structure Status where
  code : Nat
  message : String
deriving DecidableEq

/-- Modelled from the spec: the `catch_exceptions` decorator is defined in
`equistore/utils.py`, which is not among the provided sources.  Per the
spec (§4.3, §6, §7) it catches any failure arising inside a callback at
the callback boundary and translates it into a nonzero status code plus a
retrievable message, never letting it propagate through the foreign-call
frame; a successful callback returns `SUCCESS = 0`. -/
def catch_exceptions (w : World) (r : Except EqsError (World × VOut)) :
    World × Status :=
  match r with
  | .ok p => (p.1, ⟨0, ""⟩)
  | .error e => (w, ⟨kindCode e.kind, e.message⟩)

/-- A vtable invocation as the native core observes it: the (possibly
updated) world plus a status word. -/
def runVTable (w : World) (tok : Nat) (c : VTableCall) : World × Status :=
  catch_exceptions w (callVTable w tok c)

/-! ### Unfolding equations for the vtable operations -/

theorem reshapeOp_eq (w : World) (tok : Nat) (st : WrapperSt)
    (arr : BackendArr) (s2 : List Nat) (hst : w.wrappers tok = some st)
    (harr : w.heap st.arrayId = some arr) :
    reshapeOp w tok s2 =
      if s2.prod = arr.nd.shape.prod then
        Except.ok ((w.setHeap st.arrayId
            { arr with nd := { shape := s2, data := arr.nd.data } }).setWrapper
          tok { st with shapeCache := s2 })
      else Except.error ⟨.shapeErr, "cannot reshape array"⟩ := by
  simp only [reshapeOp, hst, harr]

theorem swapAxesOp_eq (w : World) (tok : Nat) (st : WrapperSt)
    (arr : BackendArr) (i j : Nat) (hst : w.wrappers tok = some st)
    (harr : w.heap st.arrayId = some arr) :
    swapAxesOp w tok i j =
      if i < arr.nd.shape.length ∧ j < arr.nd.shape.length then
        Except.ok ((w.setHeap st.arrayId
            { arr with nd := arr.nd.swapAxes i j }).setWrapper
          tok { st with shapeCache := (arr.nd.swapAxes i j).shape })
      else Except.error ⟨.internalErr, "axis out of bounds"⟩ := by
  simp only [swapAxesOp, hst, harr]

theorem copyOp_eq (w : World) (tok : Nat) (st : WrapperSt)
    (arr : BackendArr) (hst : w.wrappers tok = some st)
    (harr : w.heap st.arrayId = some arr) :
    copyOp w tok =
      Except.ok (intoEqsArray (newWrapper w (copyBackend arr)).1
        (newWrapper w (copyBackend arr)).2) := by
  simp only [copyOp, hst, harr]

theorem createOp_eq (w : World) (tok : Nat) (st : WrapperSt)
    (arr : BackendArr) (shape : List Nat) (hst : w.wrappers tok = some st)
    (harr : w.heap st.arrayId = some arr) :
    createOp w tok shape =
      Except.ok (intoEqsArray (newWrapper w (zerosLike arr shape)).1
        (newWrapper w (zerosLike arr shape)).2) := by
  simp only [createOp, hst, harr]

theorem moveSamplesFromOp_eq (w : World) (destTok srcTok : Nat)
    (stD stS : WrapperSt) (arrD arrS : BackendArr)
    (mapping : List (Nat × Nat)) (start stop : Nat)
    (hstD : w.wrappers destTok = some stD)
    (harrD : w.heap stD.arrayId = some arrD)
    (hstS : w.wrappers srcTok = some stS)
    (harrS : w.heap stS.arrayId = some arrS) :
    moveSamplesFromOp w destTok srcTok mapping start stop =
      if msfGuard arrD.nd.shape arrS.nd.shape mapping start stop then
        Except.ok (w.setHeap stD.arrayId
          { arrD with
            nd := move_samples_from arrD.nd arrS.nd mapping start stop })
      else Except.error ⟨.preconditionErr,
        "invalid samples in move_samples_from"⟩ := by
  simp only [moveSamplesFromOp, hstD, harrD, hstS, harrS]

/-! ### Concrete fixtures used by witnesses -/

/-- A plain contiguous float64 numpy array of shape (2, 2). -/
def sampleArr : BackendArr :=
  { backend := .numpy, nd := { shape := [2, 2], data := [1, 2, 3, 4] },
    dtype := .float64, contiguous := true, device := "cpu",
    requiresGrad := false }

/-- A world holding `sampleArr` wrapped behind token 0. -/
def sampleWorld : World :=
  (newWrapper ⟨fun _ => none, fun _ => none, 0, 0⟩ sampleArr).1

/-- A CPU torch tensor that is contiguous and float64 but requires
gradient tracking. -/
def gradTensor : BackendArr :=
  { backend := .torch, nd := { shape := [2], data := [0, 0] },
    dtype := .float64, contiguous := true, device := "cpu",
    requiresGrad := true }

/-! ### Claim theorems -/

/-- C3: for every vtable callback and every input, a failure raised while
executing the callback is caught at the boundary and turned into a nonzero
status code with a retrievable message (never propagating through the
foreign-call frame, `runVTable` being total), and a successful callback
reports status `SUCCESS = 0`. -/
theorem C3_callback_boundary (w : World) (tok : Nat) (c : VTableCall) :
    ((runVTable w tok c).2.code = 0 ↔
      ∃ r, callVTable w tok c = Except.ok r) ∧
    (∀ e, callVTable w tok c = Except.error e →
      (runVTable w tok c).2.code = kindCode e.kind ∧
      (runVTable w tok c).2.message = e.message ∧
      (runVTable w tok c).2.code ≠ 0) := by
  unfold runVTable catch_exceptions
  cases h : callVTable w tok c with
  | ok p => simp [h]
  | error e => simp [h, kindCode_ne_zero]

theorem C3_callback_boundary_witness :
    (runVTable sampleWorld 0 VTableCall.shape).2.code = 0 :=
  (C3_callback_boundary sampleWorld 0 VTableCall.shape).1.mpr
    ⟨(sampleWorld, VOut.shapeOut [2, 2]), rfl⟩

/-- C5: wrapping an object of unrecognised runtime type fails with the
unknown-type error, raised synchronously to the caller of the constructor
(`wrap` itself returns the error, before any vtable is handed out); any
recognised backend array is wrapped successfully, with its current shape
captured in the wrapper's shape cache. -/
theorem C5_wrap_type_check (w : World) (typeName : String) (arr : BackendArr) :
    wrap w (.other typeName) =
      Except.error ⟨.typeErr, "unknown array type: " ++ typeName⟩ ∧
    (∃ w' tok, wrap w (.array arr) = Except.ok (w', tok) ∧
      (w'.wrappers tok).map WrapperSt.shapeCache = some arr.nd.shape) := by
  constructor
  · rfl
  · refine ⟨(newWrapper w arr).1, (newWrapper w arr).2, rfl, ?_⟩
    unfold newWrapper World.setWrapper World.setHeap
    simp

/-- C4 counterexample: a CPU torch tensor that is contiguous, float64 and
host-resident, yet whose data pointer cannot be taken — `.numpy()` raises
because the tensor requires gradient tracking, so the operation fails even
though the claim says such an input succeeds. -/
theorem C4_data_pointer_cex :
    gradTensor.contiguous = true ∧ gradTensor.dtype = Dtype.float64 ∧
      gradTensor.device = "cpu" ∧
      eqs_array_data gradTensor ≠ Except.ok () := by
  refine ⟨rfl, rfl, rfl, ?_⟩
  intro h
  exact Except.noConfusion h

/-- C4 (amended): `data_pointer` succeeds exactly on contiguous float64
arrays that are host-resident and (for torch) free of gradient tracking;
each failure is classified by its cause — device error only for off-CPU
tensors, internal error only for tensors requiring grad, contiguity error
only for non-contiguous storage, dtype error only for non-float64 element
types. -/
theorem C4_data_pointer (arr : BackendArr) :
    (eqs_array_data arr = Except.ok () ↔
      (arr.contiguous = true ∧ arr.dtype = Dtype.float64 ∧
        (arr.backend = Backend.torch →
          arr.device = "cpu" ∧ arr.requiresGrad = false))) ∧
    (∀ e, eqs_array_data arr = Except.error e →
      (e.kind = ErrKind.deviceErr ∧ arr.backend = Backend.torch ∧
        arr.device ≠ "cpu") ∨
      (e.kind = ErrKind.internalErr ∧ arr.backend = Backend.torch ∧
        arr.requiresGrad = true) ∨
      (e.kind = ErrKind.contiguityErr ∧ arr.contiguous = false) ∨
      (e.kind = ErrKind.dtypeErr ∧ arr.dtype ≠ Dtype.float64)) := by
  obtain ⟨bk, nd, dt, cont, dev, rg⟩ := arr
  constructor
  · cases bk <;> cases cont <;> cases rg <;>
      by_cases hdt : dt = Dtype.float64 <;> by_cases hdev : dev = "cpu" <;>
      simp_all [eqs_array_data, checkDataPointer]
  · intro e he
    cases bk <;> cases cont <;> cases rg <;>
      by_cases hdt : dt = Dtype.float64 <;> by_cases hdev : dev = "cpu" <;>
      simp_all [eqs_array_data, checkDataPointer] <;>
      (try cases he) <;> simp_all

theorem C4_data_pointer_witness : eqs_array_data sampleArr = Except.ok () :=
  (C4_data_pointer sampleArr).1.mpr
    ⟨rfl, rfl, fun h => Backend.noConfusion h⟩

/-- C2: `reshape` succeeds exactly when the requested shape has the same
element count as the current shape; on success both the shape cache and the
stored array report the new shape; on failure the world is unchanged and
the shape-mismatch error code and message are reported. -/
theorem C2_reshape (w : World) (tok : Nat) (st : WrapperSt)
    (arr : BackendArr) (s2 : List Nat)
    (hst : w.wrappers tok = some st) (harr : w.heap st.arrayId = some arr) :
    ((runVTable w tok (.reshape s2)).2.code = 0 ↔
      s2.prod = arr.nd.shape.prod) ∧
    (s2.prod = arr.nd.shape.prod →
      ((runVTable w tok (.reshape s2)).1.wrappers tok).map
        WrapperSt.shapeCache = some s2 ∧
      (((runVTable w tok (.reshape s2)).1.heap st.arrayId).map
        fun a => a.nd.shape) = some s2) ∧
    (s2.prod ≠ arr.nd.shape.prod →
      (runVTable w tok (.reshape s2)).1 = w ∧
      (runVTable w tok (.reshape s2)).2 =
        ⟨kindCode ErrKind.shapeErr, "cannot reshape array"⟩) := by
  have hcall : runVTable w tok (.reshape s2) =
      catch_exceptions w ((reshapeOp w tok s2).map fun w' => (w', VOut.unit)) :=
    rfl
  rw [reshapeOp_eq w tok st arr s2 hst harr] at hcall
  by_cases h : s2.prod = arr.nd.shape.prod
  · rw [if_pos h] at hcall
    rw [hcall]
    refine ⟨by simp [catch_exceptions, Except.map, h], fun _ => ⟨?_, ?_⟩,
      fun hc => absurd h hc⟩
    · simp [catch_exceptions, Except.map, World.setWrapper]
    · simp [catch_exceptions, Except.map, World.setWrapper, World.setHeap]
  · rw [if_neg h] at hcall
    rw [hcall]
    refine ⟨by simp [catch_exceptions, Except.map, h, kindCode],
      fun hc => absurd hc h, fun _ => ⟨rfl, rfl⟩⟩

theorem C2_reshape_witness :
    (runVTable sampleWorld 0 (.reshape [4])).2.code = 0 :=
  (C2_reshape sampleWorld 0 ⟨0, [2, 2], 0, 0⟩ sampleArr [4] rfl rfl).1.mpr
    (by decide)

theorem copyBackend_nd (arr : BackendArr) : (copyBackend arr).nd = arr.nd := by
  unfold copyBackend
  cases arr.backend <;> rfl

theorem intoN_wrappers (n : Nat) : ∀ (w : World) (tok : Nat) (st : WrapperSt),
    w.wrappers tok = some st →
    (intoN n w tok).wrappers tok =
      some { st with refCount := st.refCount + n } := by
  induction n with
  | zero => intro w tok st h; simpa using h
  | succ n ih =>
    intro w tok st h
    show (intoN n (intoEqsArray w tok).1 tok).wrappers tok = _
    have h1 : (intoEqsArray w tok).1.wrappers tok =
        some { st with refCount := st.refCount + 1 } := by
      simp only [intoEqsArray, h]
      simp [World.setWrapper]
    rw [ih _ _ _ h1]
    have harith : st.refCount + 1 + n = st.refCount + (n + 1) := by omega
    rw [harith]

theorem destroyN_wrappers (k : Nat) : ∀ (w : World) (tok : Nat)
    (st : WrapperSt), w.wrappers tok = some st →
    (destroyN k w tok).wrappers tok =
      some { st with refCount := st.refCount - k } := by
  induction k with
  | zero => intro w tok st h; simpa using h
  | succ k ih =>
    intro w tok st h
    show (destroyN k (destroyOp w tok) tok).wrappers tok = _
    have h1 : (destroyOp w tok).wrappers tok =
        some { st with refCount := st.refCount - 1 } := by
      simp only [destroyOp, h]
      simp [World.setWrapper]
    rw [ih _ _ _ h1]
    have harith : st.refCount - 1 - k = st.refCount - (k + 1) := by omega
    rw [harith]

/-- C6: `into_eqs_array` raises the wrapper's native-side reference count by
exactly one and returns the capability token bound to this wrapper's vtable
(dispatching `shape` through the returned token reads this wrapper's cache);
and a handle obtained again through a `copy` is independent — a distinct
token whose own count is one, leaving the original count untouched. -/
theorem C6_into_handle (w : World) (tok : Nat) (st : WrapperSt)
    (arr : BackendArr) (hst : w.wrappers tok = some st)
    (harr : w.heap st.arrayId = some arr) (htok : tok ≠ w.nextWrapperId) :
    (intoEqsArray w tok).2 = tok ∧
    (intoEqsArray w tok).1.wrappers tok =
      some { st with refCount := st.refCount + 1 } ∧
    callVTable (intoEqsArray w tok).1 tok .shape =
      Except.ok ((intoEqsArray w tok).1, .shapeOut st.shapeCache) ∧
    (∀ p, copyOp w tok = Except.ok p →
      p.2 ≠ tok ∧
      (p.1.wrappers p.2).map WrapperSt.refCount = some 1 ∧
      (p.1.wrappers tok).map WrapperSt.refCount = some st.refCount) := by
  have hiE : intoEqsArray w tok =
      (w.setWrapper tok { st with refCount := st.refCount + 1 }, tok) := by
    simp only [intoEqsArray, hst]
  have hlook : (intoEqsArray w tok).1.wrappers tok =
      some { st with refCount := st.refCount + 1 } := by
    rw [hiE]; simp [World.setWrapper]
  refine ⟨by rw [hiE], hlook, ?_, ?_⟩
  · simp only [callVTable, hlook]
  · intro p hp
    rw [copyOp_eq w tok st arr hst harr] at hp
    have hpE := (Except.ok.inj hp).symm
    subst hpE
    have hnw : (newWrapper w (copyBackend arr)).1.wrappers
        (newWrapper w (copyBackend arr)).2 =
        some { arrayId := w.nextArrayId,
               shapeCache := (copyBackend arr).nd.shape,
               origin := originOf (copyBackend arr).backend, refCount := 0 } := by
      simp [newWrapper, World.setWrapper, World.setHeap]
    have hiE2 : intoEqsArray (newWrapper w (copyBackend arr)).1
        (newWrapper w (copyBackend arr)).2 =
        ((newWrapper w (copyBackend arr)).1.setWrapper
            (newWrapper w (copyBackend arr)).2
            { arrayId := w.nextArrayId,
              shapeCache := (copyBackend arr).nd.shape,
              origin := originOf (copyBackend arr).backend, refCount := 1 },
          (newWrapper w (copyBackend arr)).2) := by
      simp only [intoEqsArray, hnw]
    rw [hiE2]
    have htok2 : (newWrapper w (copyBackend arr)).2 = w.nextWrapperId := rfl
    refine ⟨by rw [htok2]; exact fun h => htok h.symm, ?_, ?_⟩
    · simp [World.setWrapper]
    · rw [htok2]
      simp only [World.setWrapper]
      simp only [newWrapper, World.setWrapper, World.setHeap]
      simp [htok, hst]

theorem C6_into_handle_witness :
    (intoEqsArray sampleWorld 0).1.wrappers 0 =
      some { arrayId := 0, shapeCache := [2, 2], origin := 0, refCount := 1 } :=
  (C6_into_handle sampleWorld 0 ⟨0, [2, 2], 0, 0⟩ sampleArr rfl rfl
    (by decide)).2.1

/-- C7: reference counting is balanced — starting from a wrapper the native
core does not yet reference, after `n ≥ 1` `into_eqs_array` calls the count
is `n`; after `k < n` matching `destroy` calls the array is still reachable
(count positive), and after exactly `n` matching `destroy` calls it becomes
collectible. -/
theorem C7_refcount_balance (n : Nat) (w : World) (tok : Nat)
    (st : WrapperSt) (hn : 1 ≤ n) (hst : w.wrappers tok = some st)
    (hrc : st.refCount = 0) :
    refCountOf (intoN n w tok) tok = n ∧
    (∀ k, k < n → ¬ collectible (destroyN k (intoN n w tok) tok) tok) ∧
    collectible (destroyN n (intoN n w tok) tok) tok := by
  have h1 := intoN_wrappers n w tok st hst
  refine ⟨?_, ?_, ?_⟩
  · unfold refCountOf
    rw [h1]
    simp [hrc]
  · intro k hk
    have h2 := destroyN_wrappers k _ tok _ h1
    unfold collectible refCountOf
    rw [h2]
    simp only [hrc]
    omega
  · have h2 := destroyN_wrappers n _ tok _ h1
    unfold collectible refCountOf
    rw [h2]
    simp [hrc]

theorem C7_refcount_balance_witness :
    refCountOf (intoN 2 sampleWorld 0) 0 = 2 ∧
      collectible (destroyN 2 (intoN 2 sampleWorld 0) 0) 0 :=
  ⟨(C7_refcount_balance 2 sampleWorld 0 ⟨0, [2, 2], 0, 0⟩ (by decide) rfl
      rfl).1,
    (C7_refcount_balance 2 sampleWorld 0 ⟨0, [2, 2], 0, 0⟩ (by decide) rfl
      rfl).2.2⟩

theorem swapAxes_length (a : NDArray) (i j : Nat) :
    (a.swapAxes i j).data.length = (swapIdx a.shape i j).prod := by
  rw [swapAxes_data]
  simp

/-- C8: on a wrapped array with a consistent shape cache, `swap_axes` with
valid axes succeeds, reports the permuted shape, preserves the element
count and the data values (the element at a permuted index is the original
element), and applying it a second time with the same axes restores the
world exactly (involution). -/
theorem C8_swap_axes_involution (w : World) (tok : Nat) (st : WrapperSt)
    (arr : BackendArr) (i j : Nat) (hst : w.wrappers tok = some st)
    (harr : w.heap st.arrayId = some arr)
    (hcache : st.shapeCache = arr.nd.shape) (hwf : arr.nd.wf)
    (hi : i < arr.nd.shape.length) (hj : j < arr.nd.shape.length) :
    ∃ w1, swapAxesOp w tok i j = Except.ok w1 ∧
      (w1.wrappers tok).map WrapperSt.shapeCache =
        some (swapIdx arr.nd.shape i j) ∧
      ((w1.heap st.arrayId).map fun a => a.nd.data.length) =
        some arr.nd.data.length ∧
      (∀ idx, validIdx idx (swapIdx arr.nd.shape i j) = true →
        ((w1.heap st.arrayId).map fun a => a.nd.get idx) =
          some (arr.nd.get (swapIdx idx i j))) ∧
      swapAxesOp w1 tok i j = Except.ok w := by
  have hop := swapAxesOp_eq w tok st arr i j hst harr
  rw [if_pos ⟨hi, hj⟩] at hop
  have hwf' : arr.nd.data.length = arr.nd.shape.prod := hwf
  refine ⟨_, hop, ?_, ?_, ?_, ?_⟩
  · simp [World.setWrapper, swapAxes_shape]
  · simp only [World.setWrapper, World.setHeap]
    simp [swapAxes_length, prod_swapIdx arr.nd.shape i j hi hj, hwf']
  · intro idx hidx
    simp only [World.setWrapper, World.setHeap]
    simp [swapAxes_get arr.nd i j idx hidx]
  · have hst1 : ((w.setHeap st.arrayId
        { arr with nd := arr.nd.swapAxes i j }).setWrapper tok
          { st with shapeCache := (arr.nd.swapAxes i j).shape }).wrappers tok =
        some { st with shapeCache := (arr.nd.swapAxes i j).shape } := by
      simp [World.setWrapper]
    have harr1 : ((w.setHeap st.arrayId
        { arr with nd := arr.nd.swapAxes i j }).setWrapper tok
          { st with shapeCache := (arr.nd.swapAxes i j).shape }).heap
          st.arrayId = some { arr with nd := arr.nd.swapAxes i j } := by
      simp [World.setWrapper, World.setHeap]
    have hop2 := swapAxesOp_eq _ tok
      { st with shapeCache := (arr.nd.swapAxes i j).shape }
      { arr with nd := arr.nd.swapAxes i j } i j hst1 harr1
    have hlen : ({ arr with nd := arr.nd.swapAxes i j } :
        BackendArr).nd.shape.length = arr.nd.shape.length := by
      simp [swapAxes_shape, length_swapIdx]
    rw [if_pos (by rw [hlen]; exact ⟨hi, hj⟩)] at hop2
    rw [hop2]
    congr 1
    rw [swapAxes_swapAxes arr.nd i j hwf hi hj]
    apply World.ext
    · funext n
      by_cases hn : n = st.arrayId
      · subst hn
        simp [World.setWrapper, World.setHeap, harr]
      · simp [World.setWrapper, World.setHeap, hn]
    · funext n
      by_cases hn : n = tok
      · subst hn
        simp [World.setWrapper, World.setHeap, hst]
        rw [← hcache]
      · simp [World.setWrapper, World.setHeap, hn]
    · rfl
    · rfl

theorem C8_swap_axes_involution_witness :
    ∃ w1, swapAxesOp sampleWorld 0 0 1 = Except.ok w1 ∧
      swapAxesOp w1 0 0 1 = Except.ok sampleWorld := by
  obtain ⟨w1, h1, _, _, _, h5⟩ := C8_swap_axes_involution sampleWorld 0
    ⟨0, [2, 2], 0, 0⟩ sampleArr 0 1 rfl rfl rfl (by decide) (by decide)
    (by decide)
  exact ⟨w1, h1, h5⟩

/-- C9: `copy` returns a fresh handle whose values and cached shape equal
the source's at copy time, held with reference count 1 in a fully
independent allocation (a distinct backing array id); writing an element
through either handle afterwards never changes the values seen through the
other. -/
theorem C9_copy_independent (w : World) (tok : Nat) (st : WrapperSt)
    (arr : BackendArr) (hst : w.wrappers tok = some st)
    (harr : w.heap st.arrayId = some arr)
    (htok : tok ≠ w.nextWrapperId) (haid : st.arrayId ≠ w.nextArrayId) :
    ∃ p, copyOp w tok = Except.ok p ∧
      valuesOf p.1 p.2 = some arr.nd.data ∧
      (p.1.wrappers p.2).map WrapperSt.shapeCache = some arr.nd.shape ∧
      (p.1.wrappers p.2).map WrapperSt.refCount = some 1 ∧
      (∀ st2, p.1.wrappers p.2 = some st2 → st2.arrayId ≠ st.arrayId) ∧
      (∀ k v, valuesOf (setArrayValue p.1 p.2 k v) tok = valuesOf p.1 tok) ∧
      (∀ k v, valuesOf (setArrayValue p.1 tok k v) p.2 = valuesOf p.1 p.2) := by
  have hop := copyOp_eq w tok st arr hst harr
  have htok' : w.nextWrapperId ≠ tok := fun h => htok h.symm
  have haid' : w.nextArrayId ≠ st.arrayId := fun h => haid h.symm
  refine ⟨_, hop, ?_, ?_, ?_, ?_, ?_, ?_⟩
  · simp [intoEqsArray, newWrapper, World.setWrapper, World.setHeap,
      valuesOf, copyBackend_nd]
  · simp [intoEqsArray, newWrapper, World.setWrapper, World.setHeap,
      copyBackend_nd]
  · simp [intoEqsArray, newWrapper, World.setWrapper, World.setHeap]
  · intro st2 hst2
    simp [intoEqsArray, newWrapper, World.setWrapper, World.setHeap] at hst2
    rw [← hst2]
    exact haid'
  · intro k v
    simp [intoEqsArray, newWrapper, World.setWrapper, World.setHeap,
      valuesOf, setArrayValue, copyBackend_nd, htok, haid, htok', haid',
      hst, harr]
  · intro k v
    simp [intoEqsArray, newWrapper, World.setWrapper, World.setHeap,
      valuesOf, setArrayValue, copyBackend_nd, htok, haid, htok', haid',
      hst, harr]

theorem C9_copy_independent_witness :
    ∃ p, copyOp sampleWorld 0 = Except.ok p ∧
      valuesOf p.1 p.2 = some sampleArr.nd.data := by
  obtain ⟨p, h1, h2, _⟩ := C9_copy_independent sampleWorld 0
    ⟨0, [2, 2], 0, 0⟩ sampleArr rfl rfl (by decide) (by decide)
  exact ⟨p, h1, h2⟩

/-- Destination array of the spec's `move_samples_from` example:
shape (2, 3, 8) filled with 4.0. -/
def testDest : NDArray := ⟨[2, 3, 8], List.replicate 48 4⟩

/-- Source array of the spec's `move_samples_from` example:
shape (1, 3, 4) filled with 2.0. -/
def testSrc : NDArray := ⟨[1, 3, 4], List.replicate 12 2⟩

/-- Expected result of the example: sample 0 untouched, sample 1 holding
2.0 in property columns 3..6 and 4.0 elsewhere. -/
def expectedDest : NDArray :=
  ⟨[2, 3, 8], List.replicate 24 4 ++
    [4, 4, 4, 2, 2, 2, 2, 4,
     4, 4, 4, 2, 2, 2, 2, 4,
     4, 4, 4, 2, 2, 2, 2, 4]⟩

/-- C1: under the precondition (arrays with matching middle dimensions, a
valid property range of width equal to the source's property width, and a
one-to-one sample mapping), `move_samples_from` copies, for every
`(i_in, i_out)` pair, source row `i_in` into destination row `i_out`
restricted to the property columns `[start, stop)`, leaves every other
sample row and every column outside the range unchanged, and in particular
reproduces the spec's (2,3,8) / (1,3,4) example. -/
theorem C1_move_samples_from (dest src : NDArray) (mapping : List (Nat × Nat))
    (start stop d0 s0 dl sl : Nat) (mid : List Nat)
    (hwf : dest.wf)
    (hdsh : dest.shape = d0 :: (mid ++ [dl]))
    (hssh : src.shape = s0 :: (mid ++ [sl]))
    (hwidth : sl = stop - start) (hse : start ≤ stop) (hstop : stop ≤ dl)
    (hnodup : (mapping.map Prod.snd).Nodup) :
    (move_samples_from dest src mapping start stop).shape = dest.shape ∧
    (move_samples_from dest src mapping start stop).data.length =
      dest.data.length ∧
    (∀ iIn iOut, (iIn, iOut) ∈ mapping →
      ∀ midIdx p, validIdx (iOut :: (midIdx ++ [p])) dest.shape = true →
        start ≤ p → p < stop →
        (move_samples_from dest src mapping start stop).get
            (iOut :: (midIdx ++ [p])) =
          src.get (iIn :: (midIdx ++ [p - start]))) ∧
    (∀ s midIdx p, validIdx (s :: (midIdx ++ [p])) dest.shape = true →
      (s ∉ mapping.map Prod.snd ∨ p < start ∨ stop ≤ p) →
      (move_samples_from dest src mapping start stop).get
          (s :: (midIdx ++ [p])) =
        dest.get (s :: (midIdx ++ [p]))) ∧
    move_samples_from testDest testSrc [(0, 1)] 3 7 = expectedDest := by
  refine ⟨msf_shape _ _ _ _ _, msf_length _ _ _ _ _, ?_, ?_, ?_⟩
  · intro iIn iOut hmem midIdx p hvalid h1 h2
    exact msf_get_pair src start stop iIn iOut p midIdx mapping dest hwf
      hnodup hmem hvalid h1 h2
  · intro s midIdx p hvalid hout
    exact msf_get_untouched src start stop s p midIdx mapping dest hwf
      hvalid hout
  · decide

theorem C1_move_samples_from_witness :
    (move_samples_from testDest testSrc [(0, 1)] 3 7).get (1 :: ([0] ++ [3])) =
      testSrc.get (0 :: ([0] ++ [3 - 3])) :=
  (C1_move_samples_from testDest testSrc [(0, 1)] 3 7 2 1 8 4 [3]
    (by decide) rfl rfl (by decide) (by decide) (by decide)
    (by decide)).2.2.1 0 1 (by decide) [0] 3 (by decide) (by decide)
    (by decide)

theorem eqs_array_data_dtype_error (arr : BackendArr)
    (hdtype : arr.dtype ≠ Dtype.float64) :
    ∃ e, eqs_array_data arr = Except.error e := by
  unfold eqs_array_data checkDataPointer
  cases arr.backend <;> split_ifs <;> exact ⟨_, rfl⟩

/-- C10 (implicit): wrapping never inspects the element type — any backend
array can be wrapped, reshaped, axis-swapped, copied, transplanted into,
and used to create fresh arrays of its own dtype; only `data` rejects a
non-float64 array, which always reports an error. -/
theorem C10_dtype_checked_only_at_data (w : World) (tok srcTok : Nat)
    (st stS : WrapperSt) (arr arrS : BackendArr) (s2 : List Nat) (i j : Nat)
    (mapping : List (Nat × Nat)) (start stop : Nat)
    (hst : w.wrappers tok = some st) (harr : w.heap st.arrayId = some arr)
    (hdtype : arr.dtype ≠ Dtype.float64)
    (hs2 : s2.prod = arr.nd.shape.prod)
    (hi : i < arr.nd.shape.length) (hj : j < arr.nd.shape.length)
    (hstS : w.wrappers srcTok = some stS)
    (harrS : w.heap stS.arrayId = some arrS)
    (hguard : msfGuard arr.nd.shape arrS.nd.shape mapping start stop) :
    (∃ p, wrap w (.array arr) = Except.ok p) ∧
    (∃ w', reshapeOp w tok s2 = Except.ok w') ∧
    (∃ w', swapAxesOp w tok i j = Except.ok w') ∧
    (∃ p, copyOp w tok = Except.ok p) ∧
    (∃ p, createOp w tok s2 = Except.ok p ∧
      (p.1.heap w.nextArrayId).map BackendArr.dtype = some arr.dtype) ∧
    (∃ w', moveSamplesFromOp w tok srcTok mapping start stop = Except.ok w') ∧
    (∃ r, callVTable w tok VTableCall.shape = Except.ok r) ∧
    (∃ r, callVTable w tok VTableCall.origin = Except.ok r) ∧
    (∃ r, callVTable w tok VTableCall.destroy = Except.ok r) ∧
    (∃ e, eqs_array_data arr = Except.error e) := by
  refine ⟨⟨_, rfl⟩, ?_, ?_, ⟨_, copyOp_eq w tok st arr hst harr⟩, ?_, ?_,
    ?_, ?_, ⟨_, rfl⟩, eqs_array_data_dtype_error arr hdtype⟩
  · rw [reshapeOp_eq w tok st arr s2 hst harr, if_pos hs2]
    exact ⟨_, rfl⟩
  · rw [swapAxesOp_eq w tok st arr i j hst harr, if_pos ⟨hi, hj⟩]
    exact ⟨_, rfl⟩
  · refine ⟨_, createOp_eq w tok st arr s2 hst harr, ?_⟩
    simp [intoEqsArray, newWrapper, World.setWrapper, World.setHeap,
      zerosLike]
  · rw [moveSamplesFromOp_eq w tok srcTok st stS arr arrS mapping start stop
      hst harr hstS harrS, if_pos hguard]
    exact ⟨_, rfl⟩
  · simp only [callVTable, hst]
    exact ⟨_, rfl⟩
  · simp only [callVTable, hst]
    exact ⟨_, rfl⟩

/-- An int32 numpy array of shape (2, 2). -/
def intDest : BackendArr :=
  { backend := .numpy, nd := ⟨[2, 2], [4, 4, 4, 4]⟩,
    dtype := .other "int32", contiguous := true, device := "cpu",
    requiresGrad := false }

/-- An int32 numpy array of shape (1, 1). -/
def intSrc : BackendArr :=
  { backend := .numpy, nd := ⟨[1, 1], [2]⟩,
    dtype := .other "int32", contiguous := true, device := "cpu",
    requiresGrad := false }

/-- A world wrapping `intDest` behind token 0 and `intSrc` behind 1. -/
def intWorld : World :=
  (newWrapper (newWrapper ⟨fun _ => none, fun _ => none, 0, 0⟩ intDest).1
    intSrc).1

theorem C10_dtype_checked_only_at_data_witness :
    ∃ e, eqs_array_data intDest = Except.error e :=
  (C10_dtype_checked_only_at_data intWorld 0 1 ⟨0, [2, 2], 0, 0⟩
    ⟨1, [1, 1], 0, 0⟩ intDest intSrc [4] 0 1 [(0, 1)] 0 1 rfl rfl
    (by decide) (by decide) (by decide) (by decide) rfl rfl
    (by decide)).2.2.2.2.2.2.2.2.2

end Equistore
